import Mathlib

/-!
Verification development for the stopwatch library (src/stopwatch.py).

The Python class Stopwatch is shallowly embedded as a Lean structure together
with one Lean function per method.  Machine time is modelled exactly by the
rationals.  The platform time source (time.perf_counter and friends) is an
external collaborator; it is modelled as a stream of readings τ : ℕ → ℚ
together with a call counter threaded through every operation, so that each
call of the Python expression self._resource() consumes one reading, in the
exact order the source performs those calls (including readings whose value is
discarded, such as the evaluated-then-unused default argument of
kwargs.get in check, and the two separate readings made by start).

String formatting and printing are display concerns (spec section 1 declares
them out of scope); a formatted report is therefore represented symbolically
by the format string together with the list of numbers fed to it, and printit
parameters are dropped (they only choose between returning and printing).
-/

/-- Python floor division a // b on numbers, as exact rationals. -/
def pyfloordiv (a b : ℚ) : ℚ := ((⌊a / b⌋ : ℤ) : ℚ)

/-- Python modulo a % b on numbers (sign of the divisor), as exact rationals. -/
def pyfmod (a b : ℚ) : ℚ := a - b * pyfloordiv a b

/-- Embedding of s_to_hms: split seconds into hours, minutes, seconds. -/
def s_to_hms (s : ℚ) : ℚ × ℚ × ℚ :=
  (pyfloordiv s 3600, pyfloordiv (pyfmod s 3600) 60, pyfmod s 60)

/-- Errors the embedded code can raise (Python exception classes). -/
inductive PyError where
  | zeroDivisionError
  | attributeError
  | statisticsError
  | typeError
deriving DecidableEq, Repr

/-- Result of the reporting routine _report.  A formatted report keeps the
format string and the numbers handed to str.format symbolically; rendering the
final text is out of scope.  The processed constructor records the value a
configured process function returned. -/
inductive ReportResult where
  | hmsTriple (h m s : ℚ)
  | secondsVal (s : ℚ)
  | formatted (form : String) (args : List ℚ)
  | processed (v : ℚ)
deriving DecidableEq, Repr

/-- Per-call report options: the kwargs numeric, hms and form overrides a
caller may pass to a reporting method (none means: use the instance default). -/
structure ReportOpts where
  numeric : Option Bool
  hms : Option Bool
  form : Option String
deriving DecidableEq, Repr

/-- No per-call report overrides (empty kwargs). -/
def noOpts : ReportOpts := ⟨none, none, none⟩

/-- State of a Stopwatch instance: the mutable timing fields together with the
reporting configuration fixed at construction. -/
structure Stopwatch where
  _start : ℚ
  _split : ℚ
  _pause : ℚ
  _less : ℚ
  _lap_less : ℚ
  _check : ℚ
  _lap : ℚ
  _hits : ℤ
  _laps : List ℚ
  _break_loop : Bool
  numeric : Bool
  hms : Bool
  form : String
  process : Option (ℚ → ℚ)

namespace Stopwatch

/-- Value of the _time property: the pause reading while paused (nonzero
_pause), otherwise a fresh reading from the time source. -/
def _timeVal (sw : Stopwatch) (τ : ℕ → ℚ) (k : ℕ) : ℚ :=
  if sw._pause ≠ 0 then sw._pause else τ k

/-- Reading counter after evaluating the _time property: one reading is
consumed exactly when the stopwatch is active. -/
def _timeK (sw : Stopwatch) (k : ℕ) : ℕ :=
  if sw._pause ≠ 0 then k else k + 1

/-- Embedding of Stopwatch.pause: when requested and currently active, record
the current time into _pause. -/
def pause (sw : Stopwatch) (τ : ℕ → ℚ) (k : ℕ) (pauseit : Bool) : Stopwatch × ℕ :=
  (if pauseit ∧ sw._pause = 0 then { sw with _pause := sw._timeVal τ k } else sw,
   if pauseit ∧ sw._pause = 0 then sw._timeK k else k)

/-- Embedding of Stopwatch.start: when requested and currently paused, add the
paused interval to both pause subtractions (two separate source readings in
the Python code), then clear _pause to zero in any requested case. -/
def start (sw : Stopwatch) (τ : ℕ → ℚ) (k : ℕ) (startit : Bool) : Stopwatch × ℕ :=
  (if startit then
     (if sw._pause ≠ 0 then
        { sw with
            _less := sw._less + (τ k - sw._pause),
            _lap_less := sw._lap_less + (τ (k + 1) - sw._pause),
            _pause := 0 }
      else { sw with _pause := 0 })
   else sw,
   if startit ∧ sw._pause ≠ 0 then k + 2 else k)

/-- Embedding of Stopwatch.reset.  The source always consumes one reading for
the default of the _start override, even when the override is supplied. -/
def reset (sw : Stopwatch) (τ : ℕ → ℚ) (k : ℕ) (startF : Bool)
    (start? less? : Option ℚ) : Stopwatch × ℕ :=
  (let r := τ k
   let s0 := start?.getD r
   let l0 := less?.getD 0
   { sw with
      _start := s0, _split := s0, _check := 0, _lap := 0, _hits := 0,
      _pause := if startF then 0 else s0,
      _less := l0, _lap_less := 0, _laps := [], _break_loop := false },
   k + 1)

/-- Embedding of Stopwatch._report.  The source first computes the processed
value when a process function is configured and binds it to res, then the
numeric branch and its else branch unconditionally rebind res from the
original delta; the shadowed let mirrors that reassignment. -/
def _report (sw : Stopwatch) (opts : ReportOpts) (delta : ℚ) : ReportResult :=
  let numeric := opts.numeric.getD sw.numeric
  let hms := opts.hms.getD sw.hms
  let form := opts.form.getD sw.form
  let res : Option ReportResult :=
    match sw.process with
    | some f => some (.processed (f delta))
    | none => none
  let res :=
    if numeric then
      if hms then
        ReportResult.hmsTriple (s_to_hms delta).1 (s_to_hms delta).2.1 (s_to_hms delta).2.2
      else
        ReportResult.secondsVal delta
    else
      if hms then
        ReportResult.formatted form
          [(s_to_hms delta).1, (s_to_hms delta).2.1, (s_to_hms delta).2.2]
      else
        ReportResult.formatted form [delta]
  res

/-- Embedding of Stopwatch.check.  The stamp argument models the stamp kwarg;
its default self._time is evaluated (consuming a reading when active) even
when a stamp is supplied, exactly as kwargs.get does in the source. -/
def check (sw : Stopwatch) (τ : ℕ → ℚ) (k : ℕ) (startF pauseF : Bool)
    (stamp : Option ℚ) (opts : ReportOpts) : ReportResult × Stopwatch × ℕ :=
  let sw1 := (sw.pause τ k pauseF).1
  let k1 := (sw.pause τ k pauseF).2
  let sw2 := (sw1.start τ k1 startF).1
  let k2 := (sw1.start τ k1 startF).2
  let st := stamp.getD (sw2._timeVal τ k2)
  let k3 := sw2._timeK k2
  let sw3 := { sw2 with _check := st - sw2._start - sw2._less }
  (sw3._report opts sw3._check, sw3, k3)

/-- Embedding of Stopwatch.lap.  Returns the pair of reports the source builds
(lap report, total report); the check parameter of the source only selects
which components are handed back and printit only selects printing, so both
are dropped.  The internal self.check(stamp=get_split) call receives no report
kwargs, hence noOpts. -/
def lap (sw : Stopwatch) (τ : ℕ → ℚ) (k : ℕ) (startF pauseF logF : Bool)
    (opts : ReportOpts) : (ReportResult × ReportResult) × Stopwatch × ℕ :=
  let sw1 := (sw.pause τ k pauseF).1
  let k1 := (sw.pause τ k pauseF).2
  let sw2 := (sw1.start τ k1 startF).1
  let k2 := (sw1.start τ k1 startF).2
  let get_split := sw2._timeVal τ k2
  let k3 := sw2._timeK k2
  let get_lap := get_split - sw2._split - sw2._lap_less
  let sw3 :=
    if logF ∧ (sw2._pause = 0 ∨ 0 < get_lap) then
      { sw2 with
          _laps := sw2._laps ++ [get_lap], _lap := get_lap,
          _split := get_split, _lap_less := 0 }
    else sw2
  let rep1 := sw3._report opts get_lap
  let c := sw3.check τ k3 false false (some get_split) noOpts
  ((rep1, c.1), c.2.1, c.2.2)

/-- Embedding of Stopwatch.hit. -/
def hit (sw : Stopwatch) (hits : ℤ) : Stopwatch :=
  { sw with _hits := sw._hits + hits }

/-- Embedding of Stopwatch.reset_hits. -/
def reset_hits (sw : Stopwatch) : Stopwatch :=
  { sw with _hits := 0 }

/-- Embedding of Stopwatch.check_after.  The source performs no validation of
after: it calls hit, then evaluates self._hits % after, which in Python raises
ZeroDivisionError when after is zero and otherwise uses floor-mod (Int.fmod).
State changes made before an exception (the hit) persist, so the state is
returned alongside the Except. -/
def check_after (sw : Stopwatch) (τ : ℕ → ℚ) (k : ℕ) (after : ℤ)
    (startF pauseF : Bool) (opts : ReportOpts) :
    Except PyError (Option ReportResult) × Stopwatch × ℕ :=
  let sw1 := (sw.pause τ k pauseF).1
  let k1 := (sw.pause τ k pauseF).2
  let sw2 := (sw1.start τ k1 startF).1
  let k2 := (sw1.start τ k1 startF).2
  let sw3 := sw2.hit 1
  if after = 0 then (.error .zeroDivisionError, sw3, k2)
  else if Int.fmod sw3._hits after = 0 then
    let c := sw3.check τ k2 false false none opts
    (.ok (some c.1), c.2.1, c.2.2)
  else (.ok none, sw3, k2)

/-- Embedding of Stopwatch.lap_after, analogous to check_after; the inner
self.lap call is made with log as given and start/pause defaults. -/
def lap_after (sw : Stopwatch) (τ : ℕ → ℚ) (k : ℕ) (after : ℤ)
    (startF pauseF logF : Bool) (opts : ReportOpts) :
    Except PyError (Option (ReportResult × ReportResult)) × Stopwatch × ℕ :=
  let sw1 := (sw.pause τ k pauseF).1
  let k1 := (sw.pause τ k pauseF).2
  let sw2 := (sw1.start τ k1 startF).1
  let k2 := (sw1.start τ k1 startF).2
  let sw3 := sw2.hit 1
  if after = 0 then (.error .zeroDivisionError, sw3, k2)
  else if Int.fmod sw3._hits after = 0 then
    let c := sw3.lap τ k2 false false logF opts
    (.ok (some c.1), c.2.1, c.2.2)
  else (.ok none, sw3, k2)

end Stopwatch

/-- Mean of a list of numbers, as statistics.mean computes it. -/
def pymean (l : List ℚ) : ℚ := l.sum / l.length

/-- Sample variance with divisor N - 1, the radicand of statistics.stdev. -/
def sampleVariance (l : List ℚ) : ℚ :=
  (l.map (fun x => (x - pymean l) ^ 2)).sum / ((l.length : ℚ) - 1)

/-- Embedding of statistics.stdev up to the final square root: the square
root of a rational is in general irrational, so the standard deviation is
represented by its square, the sample variance.  statistics.stdev raises
StatisticsError (insufficient data) for fewer than two data points. -/
def stdev_sq (l : List ℚ) : Except PyError ℚ :=
  if l.length < 2 then .error .statisticsError else .ok (sampleVariance l)

namespace Stopwatch

/-- Embedding of Stopwatch.stdevlap: zero is reported for an empty lap list,
otherwise statistics.stdev runs on the laps (raising StatisticsError for a
single lap) and its value is reported. -/
def stdevlap (sw : Stopwatch) (opts : ReportOpts) : Except PyError ReportResult :=
  if sw._laps.length < 1 then .ok (sw._report opts 0)
  else (stdev_sq sw._laps).map (fun v => sw._report opts v)

end Stopwatch

/-- The four time-source selections the documentation supports. -/
def supportedResources : List String :=
  ["perf_counter", "monotonic", "process_time", "time"]

/-- How an attribute of the external time module behaves when __init__ binds
it as self._resource and reset then evaluates self._resource(): clock is a
zero-argument callable returning a numeric timestamp (the timing-resource
contract of spec section 6); callFails covers attributes whose zero-argument
call raises TypeError (functions with required arguments and non-callable
module constants alike); zeroArgOther covers zero-argument callables whose
result is not a number, for which construction still completes. -/
inductive TimeAttrKind where
  | clock
  | callFails
  | zeroArgOther
deriving DecidableEq, Repr

/-- The public namespace of the CPython 3.7+ time module (the external
platform collaborator of spec section 6), each attribute tagged with the
behaviour of its zero-argument call, per the platform documentation.  This is
one concrete value of the external module, used to instantiate theorems at
concrete platform inputs; the reasoning about __init__ itself is parametric
in the module.  Module dunder attributes and further platform-specific
CLOCK_ constants (all behaving like callFails) are omitted from this
representative value. -/
def cpythonTimeModule : List (String × TimeAttrKind) :=
  [("time", .clock), ("time_ns", .clock),
   ("perf_counter", .clock), ("perf_counter_ns", .clock),
   ("monotonic", .clock), ("monotonic_ns", .clock),
   ("process_time", .clock), ("process_time_ns", .clock),
   ("thread_time", .clock), ("thread_time_ns", .clock),
   ("sleep", .callFails), ("mktime", .callFails), ("strftime", .callFails),
   ("strptime", .callFails), ("get_clock_info", .callFails),
   ("timezone", .callFails), ("altzone", .callFails), ("daylight", .callFails),
   ("tzname", .callFails), ("struct_time", .callFails),
   ("gmtime", .zeroArgOther), ("localtime", .zeroArgOther),
   ("asctime", .zeroArgOther), ("ctime", .zeroArgOther),
   ("tzset", .zeroArgOther)]

/-- A blank Stopwatch record used as the object whose fields __init__ and
reset then fill in; every timing field is overwritten by reset before use. -/
def blankStopwatch (numeric hms : Bool) (form : String)
    (process : Option (ℚ → ℚ)) : Stopwatch :=
  { _start := 0, _split := 0, _pause := 0, _less := 0, _lap_less := 0,
    _check := 0, _lap := 0, _hits := 0, _laps := [], _break_loop := false,
    numeric := numeric, hms := hms, form := form, process := process }

/-- Embedding of Stopwatch.__init__, parameterized by the namespace of the
external time module: getattr(time, resource) raises AttributeError exactly
when the name is absent from the module; otherwise self.reset runs, whose
self._resource() reading raises TypeError when the attribute is not a
zero-argument callable; zero-argument attributes complete construction (the
reporting defaults are then fixed, with the default format string depending
on hms).  For a zeroArgOther attribute the source stores the call's
non-numeric result as the epoch; no claim inspects that epoch, and the
embedded state records the stream reading in its place. -/
def Stopwatch.init (module : List (String × TimeAttrKind))
    (startF numeric hms : Bool) (form : Option String)
    (process : Option (ℚ → ℚ)) (resource : String) (τ : ℕ → ℚ) (k : ℕ) :
    Except PyError (Stopwatch × ℕ) :=
  match module.lookup resource with
  | none => .error .attributeError
  | some .callFails => .error .typeError
  | some _ =>
    let defaultForm :=
      if hms then "\x7b0:.0f\x7d:\x7b1:02.0f\x7d:\x7b2:05.2f\x7d"
      else "\x7b0:.2f\x7d"
    let p := (blankStopwatch numeric hms (form.getD defaultForm) process).reset τ k startF none none
    .ok p

/-- Construction of a fresh stopwatch at source reading t0 (the successful
path of __init__ with the reading stream started at t0). -/
def Stopwatch.fresh (numeric hms : Bool) (form : String)
    (process : Option (ℚ → ℚ)) (startF : Bool) (t0 : ℚ) : Stopwatch :=
  ((blankStopwatch numeric hms form process).reset (fun _ => t0) 0 startF none none).1

/-- Is an Except a success? -/
def isOkE {ε α : Type _} : Except ε α → Bool
  | .ok _ => true
  | .error _ => false

/-!
Loop supervision.  timed_loop drives loop_timer as a generator; with the
default chunk size every = 1 (chunkit, the external chunking capability of
spec section 6, then produces singleton chunks) the fused consumer-driven
execution performs, per yielded element: loop_timer starts the chunk and
yields; timed_loop hands the element on and, back in control, checks the
cutoff-0 expiration via self.check(numeric=True, hms=False), setting
_break_loop once elapsed is at least the threshold; loop_timer then resumes,
commits the chunk lap and stops if the break flag is set.
-/

/-- One fused iteration of timed_loop over loop_timer at chunk size 1,
returning the elapsed value the expiration check computed.  cutoff 0
(overtime) is the default policy modelled here. -/
def timedLoopStep (timer : ℚ) (τ : ℕ → ℚ) (sw : Stopwatch) (k : ℕ) :
    ℚ × Stopwatch × ℕ :=
  let s1 := sw.start τ k true
  let c := s1.1.check τ s1.2 false false none ⟨some true, some false, none⟩
  let elapsed := match c.1 with | .secondsVal s => s | _ => 0
  let sw3 := if timer ≤ elapsed then { c.2.1 with _break_loop := true } else c.2.1
  let l := sw3.lap τ c.2.2 false false true noOpts
  (elapsed, l.2.1, l.2.2)

/-- Iteration of the fused timed_loop body over a finite input sequence: each
element is yielded before its expiration check, and the break flag stops the
loop only after the chunk lap has been committed. -/
def timedLoopListGo {α : Type} (timer : ℚ) (τ : ℕ → ℚ) :
    Stopwatch → ℕ → List α → List α × Stopwatch × ℕ
  | sw, k, [] => ([], sw, k)
  | sw, k, x :: rest =>
    let s := timedLoopStep timer τ sw k
    if s.2.1._break_loop then ([x], s.2.1, s.2.2)
    else
      let r := timedLoopListGo timer τ s.2.1 s.2.2 rest
      (x :: r.1, r.2.1, r.2.2)

/-- Embedding of Stopwatch.timed_loop over a finite iterable at the default
chunk size 1 and default cutoff 0: loop_timer clears the break flag and
resets the watch unstarted, then the fused loop runs; the yielded elements
are returned together with the final state. -/
def Stopwatch.timed_loop_list {α : Type} (sw : Stopwatch) (τ : ℕ → ℚ) (k : ℕ)
    (l : List α) (s m h : ℚ) : List α × Stopwatch × ℕ :=
  let timer := s + 60 * m + 3600 * h
  let sw1 := { sw with _break_loop := false }
  let p := sw1.reset τ k false none none
  timedLoopListGo timer τ p.1 p.2 l

/-- Fuel-indexed iteration of the fused timed_loop body over the infinite
counter 0, 1, 2, ... (the external infinite counter capability used when no
iterable is given); none means the fuel ran out before the loop stopped.
Each yielded element is paired with the elapsed value its expiration check
computed, so the cutoff behaviour is visible in the result. -/
def timedLoopCountGo (timer : ℚ) (τ : ℕ → ℚ) :
    ℕ → Stopwatch → ℕ → ℕ → Option (List (ℕ × ℚ))
  | 0, _, _, _ => none
  | fuel + 1, sw, k, i =>
    let s := timedLoopStep timer τ sw k
    if s.2.1._break_loop then some [(i, s.1)]
    else (timedLoopCountGo timer τ fuel s.2.1 s.2.2 (i + 1)).map
      (fun ys => (i, s.1) :: ys)

/-- Embedding of Stopwatch.timed_loop with no iterable (infinite counter),
default chunk size 1 and default cutoff 0, run with the given fuel. -/
def Stopwatch.timed_loop_count (sw : Stopwatch) (τ : ℕ → ℚ) (k : ℕ)
    (fuel : ℕ) (s m h : ℚ) : Option (List (ℕ × ℚ)) :=
  let timer := s + 60 * m + 3600 * h
  let sw1 := { sw with _break_loop := false }
  let p := sw1.reset τ k false none none
  timedLoopCountGo timer τ fuel p.1 p.2 0

/-!
Operation traces.  A TraceOp is one public mutating call on a stopwatch; its
time readings are idealized to a single instant now per operation (every
reading the operation makes returns now), which is the ideal-time-source
reading of the invariant claims.
-/

/-- One public operation on a stopwatch, tagged with the instant at which it
runs.  Flags mirror the corresponding Python keyword arguments. -/
inductive TraceOp where
  | pauseOp (now : ℚ)
  | startOp (now : ℚ)
  | checkOp (now : ℚ) (startF pauseF : Bool)
  | lapOp (now : ℚ) (startF pauseF logF : Bool)
  | hitOp (n : ℤ)
  | resetHitsOp
  | resetOp (now : ℚ) (startF : Bool) (start? less? : Option ℚ)
  | checkAfterOp (now : ℚ) (after : ℤ) (startF pauseF : Bool)
  | lapAfterOp (now : ℚ) (after : ℤ) (startF pauseF logF : Bool)

/-- Apply one operation to a stopwatch state. -/
def applyOp (sw : Stopwatch) : TraceOp → Stopwatch
  | .pauseOp now => (sw.pause (fun _ => now) 0 true).1
  | .startOp now => (sw.start (fun _ => now) 0 true).1
  | .checkOp now sF pF => (sw.check (fun _ => now) 0 sF pF none noOpts).2.1
  | .lapOp now sF pF lF => (sw.lap (fun _ => now) 0 sF pF lF noOpts).2.1
  | .hitOp n => sw.hit n
  | .resetHitsOp => sw.reset_hits
  | .resetOp now sF s? l? => (sw.reset (fun _ => now) 0 sF s? l?).1
  | .checkAfterOp now after sF pF =>
      (sw.check_after (fun _ => now) 0 after sF pF noOpts).2.1
  | .lapAfterOp now after sF pF lF =>
      (sw.lap_after (fun _ => now) 0 after sF pF lF noOpts).2.1

/-- Apply a list of operations in order. -/
def runOps (sw : Stopwatch) (ops : List TraceOp) : Stopwatch :=
  ops.foldl applyOp sw

/-- The four core timing operations of the lap-partition claim:
pause, start, lap and check. -/
def TraceOp.isCore : TraceOp → Bool
  | .pauseOp _ => true
  | .startOp _ => true
  | .checkOp _ _ _ => true
  | .lapOp _ _ _ _ => true
  | _ => false

/-- Operations legal between two resets whose hit counts are non-negative:
everything except reset and reset_hits, with hit only adding a natural
number of events. -/
def TraceOp.hitsSafe : TraceOp → Bool
  | .hitOp n => decide (0 ≤ n)
  | .resetHitsOp => false
  | .resetOp _ _ _ _ => false
  | _ => true

/-!
Claim theorems.
-/

/-- C2: for every raw seconds value and every combination of the numeric, hms
and format options, _report with a configured process function computes the
processed value but then unconditionally rebinds the result from the original
delta in the numeric/hms branches, so the returned report is identical to the
one produced with no process function configured. -/
theorem c2_report_process_ignored (sw : Stopwatch) (opts : ReportOpts) (delta : ℚ) :
    sw._report opts delta = { sw with process := none }._report opts delta := rfl

/-- C9: check with autoStart and autoPause both false mutates nothing except
the lastCheck cache _check: laps, hits, startRef, splitRef, pauseRef,
pauseOffset, lapPauseOffset, lastLap and the break flag are all unchanged. -/
theorem c9_check_frame (sw : Stopwatch) (τ : ℕ → ℚ) (k : ℕ) (stamp : Option ℚ)
    (opts : ReportOpts) :
    ((sw.check τ k false false stamp opts).2.1._laps = sw._laps) ∧
    ((sw.check τ k false false stamp opts).2.1._hits = sw._hits) ∧
    ((sw.check τ k false false stamp opts).2.1._start = sw._start) ∧
    ((sw.check τ k false false stamp opts).2.1._split = sw._split) ∧
    ((sw.check τ k false false stamp opts).2.1._pause = sw._pause) ∧
    ((sw.check τ k false false stamp opts).2.1._less = sw._less) ∧
    ((sw.check τ k false false stamp opts).2.1._lap_less = sw._lap_less) ∧
    ((sw.check τ k false false stamp opts).2.1._lap = sw._lap) ∧
    ((sw.check τ k false false stamp opts).2.1._break_loop = sw._break_loop) :=
  ⟨rfl, rfl, rfl, rfl, rfl, rfl, rfl, rfl, rfl⟩

/-- C10: for every non-empty input sequence, timed_loop yields at least one
element — the first input element — whatever the time budget is (including a
zero or negative threshold): the expiration check runs only after an element
has been yielded and the break flag is consulted only afterwards. -/
theorem c10_timed_loop_first_element {α : Type} (sw : Stopwatch) (τ : ℕ → ℚ)
    (k : ℕ) (x : α) (rest : List α) (s m h : ℚ) :
    ∃ ys, (sw.timed_loop_list τ k (x :: rest) s m h).1 = x :: ys := by
  unfold Stopwatch.timed_loop_list timedLoopListGo
  dsimp only
  split
  · exact ⟨[], rfl⟩
  · exact ⟨_, rfl⟩

/-- Calling pause with a false flag is a no-op. -/
theorem Stopwatch.pause_false (sw : Stopwatch) (τ : ℕ → ℚ) (k : ℕ) :
    sw.pause τ k false = (sw, k) := rfl

/-- Calling start with a false flag is a no-op. -/
theorem Stopwatch.start_false (sw : Stopwatch) (τ : ℕ → ℚ) (k : ℕ) :
    sw.start τ k false = (sw, k) := rfl

/-- The report of a stopwatch depends only on its reporting configuration. -/
theorem Stopwatch.report_config_only (sw sw2 : Stopwatch)
    (hn : sw2.numeric = sw.numeric) (hh : sw2.hms = sw.hms)
    (hf : sw2.form = sw.form) (hp : sw2.process = sw.process)
    (opts : ReportOpts) (delta : ℚ) :
    sw2._report opts delta = sw._report opts delta := by
  unfold Stopwatch._report
  rw [hn, hh, hf, hp]


/-- C4: with default flags, lap called while active always appends the
computed lap duration (current reading - splitRef - lapPauseOffset) to laps,
while lap called paused with non-positive elapsed lap time appends nothing
and leaves splitRef and lapPauseOffset unchanged; in both cases the computed
lap report is returned. -/
theorem c4_lap_logging_gate (sw : Stopwatch) (τ : ℕ → ℚ) (k : ℕ) (opts : ReportOpts) :
    (sw._pause = 0 →
      ((sw.lap τ k false false true opts).2.1._laps
          = sw._laps ++ [τ k - sw._split - sw._lap_less]) ∧
      (sw.lap τ k false false true opts).1.1
          = sw._report opts (τ k - sw._split - sw._lap_less)) ∧
    (sw._pause ≠ 0 → sw._pause - sw._split - sw._lap_less ≤ 0 →
      ((sw.lap τ k false false true opts).2.1._laps = sw._laps) ∧
      ((sw.lap τ k false false true opts).2.1._split = sw._split) ∧
      ((sw.lap τ k false false true opts).2.1._lap_less = sw._lap_less) ∧
      (sw.lap τ k false false true opts).1.1
          = sw._report opts (sw._pause - sw._split - sw._lap_less)) := by
  constructor
  · intro hp
    simp only [Stopwatch.lap, Stopwatch.pause_false, Stopwatch.start_false,
      Stopwatch.check, Stopwatch._timeVal, Stopwatch._timeK, hp]
    simp only [ne_eq, not_true_eq_false, if_false, eq_self_iff_true, true_and,
      true_or, if_true, ite_false, ite_true, not_false_eq_true]
    exact Stopwatch.report_config_only _ _ rfl rfl rfl rfl _ _
  · intro hp hle
    have hp' : (sw._pause = 0) = False := eq_false hp
    have hle' : (0 < sw._pause - sw._split - sw._lap_less) = False :=
      eq_false (not_lt.mpr hle)
    simp only [Stopwatch.lap, Stopwatch.pause_false, Stopwatch.start_false,
      Stopwatch.check, Stopwatch._timeVal, Stopwatch._timeK, ne_eq, hp', hle',
      not_false_eq_true, if_true, if_false, false_or, or_false, ite_true,
      ite_false, and_false, false_and, true_and]

/-- Witness for c4_lap_logging_gate at concrete states: an active stopwatch
logs the lap, a paused one with zero elapsed lap time does not. -/
theorem c4_lap_logging_gate_witness :
    ((blankStopwatch true false "f" none)._pause = 0 ∧
      (((blankStopwatch true false "f" none).lap (fun _ => 7) 0 false false true
          noOpts).2.1._laps
        = (blankStopwatch true false "f" none)._laps
            ++ [7 - (blankStopwatch true false "f" none)._split
                  - (blankStopwatch true false "f" none)._lap_less])) ∧
    ({ blankStopwatch true false "f" none with _pause := 5, _split := 5 }._pause ≠ 0 ∧
      (({ blankStopwatch true false "f" none with _pause := 5, _split := 5 }.lap
          (fun _ => 7) 0 false false true noOpts).2.1._laps
        = { blankStopwatch true false "f" none with _pause := 5, _split := 5 }._laps)) := by
  constructor
  · exact ⟨rfl, ((c4_lap_logging_gate (blankStopwatch true false "f" none)
      (fun _ => 7) 0 noOpts).1 rfl).1⟩
  · exact ⟨by norm_num [blankStopwatch], (((c4_lap_logging_gate
      { blankStopwatch true false "f" none with _pause := 5, _split := 5 }
      (fun _ => 7) 0 noOpts).2 (by norm_num [blankStopwatch])
        (by norm_num [blankStopwatch])).1)⟩

/-- The pause method never changes the hit counter. -/
theorem Stopwatch.pause_hits (sw : Stopwatch) (τ : ℕ → ℚ) (k : ℕ) (b : Bool) :
    ((sw.pause τ k b).1)._hits = sw._hits := by
  unfold Stopwatch.pause; dsimp only; split <;> rfl

/-- The start method never changes the hit counter. -/
theorem Stopwatch.start_hits (sw : Stopwatch) (τ : ℕ → ℚ) (k : ℕ) (b : Bool) :
    ((sw.start τ k b).1)._hits = sw._hits := by
  unfold Stopwatch.start; dsimp only; split
  · split <;> rfl
  · rfl

/-- C7: stdevlap reports the zero value for an empty lap list, surfaces the
StatisticsError (insufficient data) for exactly one recorded lap, and for two
or more laps reports the sample standard deviation, whose square times N - 1
is the sum of squared deviations from the mean (divisor N - 1). -/
theorem c7_stdevlap_policy (sw : Stopwatch) (opts : ReportOpts) :
    (sw._laps = [] → sw.stdevlap opts = .ok (sw._report opts 0)) ∧
    (sw._laps.length = 1 → sw.stdevlap opts = .error .statisticsError) ∧
    (2 ≤ sw._laps.length →
      sw.stdevlap opts = .ok (sw._report opts (sampleVariance sw._laps)) ∧
      sampleVariance sw._laps * ((sw._laps.length : ℚ) - 1)
        = (sw._laps.map (fun x => (x - pymean sw._laps) ^ 2)).sum) := by
  refine ⟨fun h => ?_, fun h => ?_, fun h => ?_⟩
  · simp [Stopwatch.stdevlap, h]
  · simp [Stopwatch.stdevlap, stdev_sq, h, Except.map]
  · have h1 : ¬ sw._laps.length < 1 := by omega
    have h2 : ¬ sw._laps.length < 2 := by omega
    have hne : ((sw._laps.length : ℚ) - 1) ≠ 0 := by
      have : (2 : ℚ) ≤ (sw._laps.length : ℚ) := by exact_mod_cast h
      intro hc
      nlinarith
    refine ⟨by simp [Stopwatch.stdevlap, stdev_sq, h1, h2, Except.map], ?_⟩
    unfold sampleVariance
    exact div_mul_cancel₀ _ hne

/-- Witness for c7_stdevlap_policy at zero, one and four recorded laps. -/
theorem c7_stdevlap_policy_witness :
    ((blankStopwatch true false "f" none)._laps = [] ∧
      (blankStopwatch true false "f" none).stdevlap noOpts
        = .ok ((blankStopwatch true false "f" none)._report noOpts 0)) ∧
    ({ blankStopwatch true false "f" none with _laps := [7] }._laps.length = 1 ∧
      { blankStopwatch true false "f" none with _laps := [7] }.stdevlap noOpts
        = .error .statisticsError) ∧
    (2 ≤ { blankStopwatch true false "f" none with _laps := [1, 2, 3, 4] }._laps.length ∧
      { blankStopwatch true false "f" none with _laps := [1, 2, 3, 4] }.stdevlap noOpts
        = .ok ({ blankStopwatch true false "f" none with _laps := [1, 2, 3, 4] }._report
            noOpts (sampleVariance [1, 2, 3, 4]))) := by
  refine ⟨⟨rfl, ?_⟩, ⟨rfl, ?_⟩, ⟨by norm_num, ?_⟩⟩
  · exact (c7_stdevlap_policy (blankStopwatch true false "f" none) noOpts).1 rfl
  · exact (c7_stdevlap_policy
      { blankStopwatch true false "f" none with _laps := [7] } noOpts).2.1 rfl
  · exact ((c7_stdevlap_policy
      { blankStopwatch true false "f" none with _laps := [1, 2, 3, 4] } noOpts).2.2
        (by norm_num)).1

/-- C3 (amended): check_after and lap_after perform no validation of after.
Calling with after equal to zero fails with ZeroDivisionError raised by the
hits-modulo computation (after the hit is counted), and calling with any
nonzero after (negative included) succeeds, returning a report exactly when
after divides the updated hit count under Python floor-mod. -/
theorem c3_after_validation_amended (sw : Stopwatch) (τ : ℕ → ℚ) (k : ℕ)
    (startF pauseF logF : Bool) (opts : ReportOpts) (after : ℤ) :
    (after = 0 →
      (sw.check_after τ k after startF pauseF opts).1 = .error .zeroDivisionError ∧
      (sw.lap_after τ k after startF pauseF logF opts).1 = .error .zeroDivisionError) ∧
    (after ≠ 0 →
      (∃ rep?, (sw.check_after τ k after startF pauseF opts).1 = .ok rep? ∧
        (rep?.isSome ↔ Int.fmod (sw._hits + 1) after = 0)) ∧
      (∃ rep?, (sw.lap_after τ k after startF pauseF logF opts).1 = .ok rep? ∧
        (rep?.isSome ↔ Int.fmod (sw._hits + 1) after = 0))) := by
  have hh : (((sw.pause τ k pauseF).1.start τ ((sw.pause τ k pauseF).2) startF).1.hit 1)._hits
      = sw._hits + 1 := by
    show (_ : Stopwatch)._hits + 1 = sw._hits + 1
    rw [Stopwatch.start_hits, Stopwatch.pause_hits]
  constructor
  · intro h0
    subst h0
    exact ⟨rfl, rfl⟩
  · intro hne
    constructor
    · unfold Stopwatch.check_after
      rw [if_neg hne, hh]
      by_cases hm : Int.fmod (sw._hits + 1) after = 0
      · rw [if_pos hm]
        exact ⟨_, rfl, by simp [hm]⟩
      · rw [if_neg hm]
        exact ⟨none, rfl, by simp [hm]⟩
    · unfold Stopwatch.lap_after
      rw [if_neg hne, hh]
      by_cases hm : Int.fmod (sw._hits + 1) after = 0
      · rw [if_pos hm]
        exact ⟨_, rfl, by simp [hm]⟩
      · rw [if_neg hm]
        exact ⟨none, rfl, by simp [hm]⟩

/-- Witness for c3_after_validation_amended at after = -1 and after = 0. -/
theorem c3_after_validation_amended_witness :
    ((-1 : ℤ) ≠ 0 ∧
      ((∃ rep?, ((blankStopwatch true false "f" none).check_after (fun _ => 1) 0 (-1)
            false false noOpts).1 = .ok rep? ∧
        (rep?.isSome ↔ Int.fmod ((blankStopwatch true false "f" none)._hits + 1) (-1) = 0)) ∧
       (∃ rep?, ((blankStopwatch true false "f" none).lap_after (fun _ => 1) 0 (-1)
            false false true noOpts).1 = .ok rep? ∧
        (rep?.isSome ↔ Int.fmod ((blankStopwatch true false "f" none)._hits + 1) (-1) = 0)))) ∧
    ((0 : ℤ) = 0 ∧
      ((blankStopwatch true false "f" none).check_after (fun _ => 1) 0 0
          false false noOpts).1 = .error .zeroDivisionError ∧
      ((blankStopwatch true false "f" none).lap_after (fun _ => 1) 0 0
          false false true noOpts).1 = .error .zeroDivisionError) := by
  constructor
  · exact ⟨by decide, (c3_after_validation_amended (blankStopwatch true false "f" none)
      (fun _ => 1) 0 false false true noOpts (-1)).2 (by decide)⟩
  · exact ⟨rfl, (c3_after_validation_amended (blankStopwatch true false "f" none)
      (fun _ => 1) 0 false false true noOpts 0).1 rfl⟩

/-- C3 counterexample: calling check_after or lap_after with the negative
after value -1 succeeds, and calling either with after = 0 fails with
ZeroDivisionError, not an InvalidArgument-style error; so after at most 0
does not fail with InvalidArgument as claimed. -/
theorem c3_after_validation_counterexample :
    isOkE ((blankStopwatch true false "f" none).check_after (fun _ => 1) 0 (-1)
        false false noOpts).1 = true ∧
    isOkE ((blankStopwatch true false "f" none).lap_after (fun _ => 1) 0 (-1)
        false false true noOpts).1 = true ∧
    ((blankStopwatch true false "f" none).check_after (fun _ => 1) 0 0
        false false noOpts).1 = .error .zeroDivisionError ∧
    ((blankStopwatch true false "f" none).lap_after (fun _ => 1) 0 0
        false false true noOpts).1 = .error .zeroDivisionError :=
  ⟨rfl, rfl, rfl, rfl⟩

/-- C8 (amended): for any contents of the external time module, construction
fails with the AttributeError (the InvalidConfiguration-style error listing
the supported options) exactly when the selection is not an attribute of the
module — so a selection outside the documented supported set need not fail:
any module attribute passes that validation, clock attributes construct
successfully, and an attribute that is not a zero-argument callable (such as
sleep) escapes the AttributeError and fails only later, inside reset's first
reading, with an unrelated TypeError.  On the documented platform module,
every one of the four supported selections constructs successfully. -/
theorem c8_resource_validation_amended (module : List (String × TimeAttrKind))
    (startF numeric hms : Bool) (form : Option String)
    (process : Option (ℚ → ℚ)) (resource : String) (τ : ℕ → ℚ) (k : ℕ) :
    (Stopwatch.init module startF numeric hms form process resource τ k
        = .error .attributeError ↔ module.lookup resource = none) ∧
    (module.lookup resource = some .clock →
      isOkE (Stopwatch.init module startF numeric hms form process resource τ k)
        = true) ∧
    (module.lookup resource = some .callFails →
      Stopwatch.init module startF numeric hms form process resource τ k
        = .error .typeError) ∧
    (∀ r ∈ supportedResources,
      isOkE (Stopwatch.init cpythonTimeModule startF numeric hms form process r τ k)
        = true) := by
  refine ⟨?_, ?_, ?_, ?_⟩
  · unfold Stopwatch.init
    cases h : module.lookup resource with
    | none => simp
    | some kind => cases kind <;> simp
  · intro h
    unfold Stopwatch.init
    rw [h]
    rfl
  · intro h
    unfold Stopwatch.init
    rw [h]
  · intro r hr
    simp only [supportedResources, List.mem_cons, List.mem_singleton,
      List.not_mem_nil, or_false] at hr
    rcases hr with rfl | rfl | rfl | rfl <;> rfl

/-- Witness for c8_resource_validation_amended: on the documented platform
module, the clock attribute monotonic lies in the namespace and constructs,
and the supported selection perf_counter constructs. -/
theorem c8_resource_validation_amended_witness :
    (cpythonTimeModule.lookup "monotonic" = some TimeAttrKind.clock ∧
      isOkE (Stopwatch.init cpythonTimeModule true false true none none
        "monotonic" (fun _ => 1) 0) = true) ∧
    ("perf_counter" ∈ supportedResources ∧
      isOkE (Stopwatch.init cpythonTimeModule true false true none none
        "perf_counter" (fun _ => 1) 0) = true) :=
  ⟨⟨rfl, (c8_resource_validation_amended cpythonTimeModule true false true none none
      "monotonic" (fun _ => 1) 0).2.1 rfl⟩,
   ⟨by simp [supportedResources],
    (c8_resource_validation_amended cpythonTimeModule true false true none none
      "perf_counter" (fun _ => 1) 0).2.2.2 "perf_counter"
      (by simp [supportedResources])⟩⟩

/-- C8 counterexample: monotonic_ns lies outside the documented supported
set, yet construction with it on the documented platform module succeeds
rather than failing with the construction-time error. -/
theorem c8_resource_validation_counterexample :
    supportedResources.contains "monotonic_ns" = false ∧
    isOkE (Stopwatch.init cpythonTimeModule true false true none none
        "monotonic_ns" (fun _ => 1) 0) = true :=
  ⟨rfl, rfl⟩

/-- The check method never changes the hit counter, whatever flags it gets. -/
theorem Stopwatch.check_hits (sw : Stopwatch) (τ : ℕ → ℚ) (k : ℕ)
    (sF pF : Bool) (stamp : Option ℚ) (opts : ReportOpts) :
    ((sw.check τ k sF pF stamp opts).2.1)._hits = sw._hits := by
  unfold Stopwatch.check
  dsimp only
  rw [Stopwatch.start_hits, Stopwatch.pause_hits]

/-- The lap method never changes the hit counter, whatever flags it gets. -/
theorem Stopwatch.lap_hits (sw : Stopwatch) (τ : ℕ → ℚ) (k : ℕ)
    (sF pF lF : Bool) (opts : ReportOpts) :
    ((sw.lap τ k sF pF lF opts).2.1)._hits = sw._hits := by
  unfold Stopwatch.lap
  dsimp only
  rw [Stopwatch.check_hits]
  split
  · dsimp only
    rw [Stopwatch.start_hits, Stopwatch.pause_hits]
  · rw [Stopwatch.start_hits, Stopwatch.pause_hits]

/-- check_after increments the hit counter by exactly one, in every branch
(report produced, gate closed, or ZeroDivisionError). -/
theorem Stopwatch.check_after_hits (sw : Stopwatch) (τ : ℕ → ℚ) (k : ℕ)
    (after : ℤ) (sF pF : Bool) (opts : ReportOpts) :
    ((sw.check_after τ k after sF pF opts).2.1)._hits = sw._hits + 1 := by
  unfold Stopwatch.check_after
  dsimp only
  split
  · show ((_ : Stopwatch).hit 1)._hits = sw._hits + 1
    unfold Stopwatch.hit
    dsimp only
    rw [Stopwatch.start_hits, Stopwatch.pause_hits]
  · split
    · rw [Stopwatch.check_hits]
      show ((_ : Stopwatch).hit 1)._hits = sw._hits + 1
      unfold Stopwatch.hit
      dsimp only
      rw [Stopwatch.start_hits, Stopwatch.pause_hits]
    · show ((_ : Stopwatch).hit 1)._hits = sw._hits + 1
      unfold Stopwatch.hit
      dsimp only
      rw [Stopwatch.start_hits, Stopwatch.pause_hits]

/-- lap_after increments the hit counter by exactly one, in every branch. -/
theorem Stopwatch.lap_after_hits (sw : Stopwatch) (τ : ℕ → ℚ) (k : ℕ)
    (after : ℤ) (sF pF lF : Bool) (opts : ReportOpts) :
    ((sw.lap_after τ k after sF pF lF opts).2.1)._hits = sw._hits + 1 := by
  unfold Stopwatch.lap_after
  dsimp only
  split
  · show ((_ : Stopwatch).hit 1)._hits = sw._hits + 1
    unfold Stopwatch.hit
    dsimp only
    rw [Stopwatch.start_hits, Stopwatch.pause_hits]
  · split
    · rw [Stopwatch.lap_hits]
      show ((_ : Stopwatch).hit 1)._hits = sw._hits + 1
      unfold Stopwatch.hit
      dsimp only
      rw [Stopwatch.start_hits, Stopwatch.pause_hits]
    · show ((_ : Stopwatch).hit 1)._hits = sw._hits + 1
      unfold Stopwatch.hit
      dsimp only
      rw [Stopwatch.start_hits, Stopwatch.pause_hits]

/-- A hits-safe operation never decreases the hit counter. -/
theorem applyOp_hits_mono (sw : Stopwatch) (op : TraceOp)
    (h : op.hitsSafe = true) : sw._hits ≤ (applyOp sw op)._hits := by
  cases op with
  | pauseOp now => exact le_of_eq (Stopwatch.pause_hits sw _ 0 true).symm
  | startOp now => exact le_of_eq (Stopwatch.start_hits sw _ 0 true).symm
  | checkOp now sF pF => exact le_of_eq (Stopwatch.check_hits sw _ 0 sF pF none noOpts).symm
  | lapOp now sF pF lF => exact le_of_eq (Stopwatch.lap_hits sw _ 0 sF pF lF noOpts).symm
  | hitOp n =>
      have hn : 0 ≤ n := by simpa [TraceOp.hitsSafe] using h
      show sw._hits ≤ (sw.hit n)._hits
      unfold Stopwatch.hit
      dsimp only
      omega
  | resetHitsOp => simp [TraceOp.hitsSafe] at h
  | resetOp now sF s? l? => simp [TraceOp.hitsSafe] at h
  | checkAfterOp now after sF pF =>
      rw [show applyOp sw (.checkAfterOp now after sF pF)
          = (sw.check_after (fun _ => now) 0 after sF pF noOpts).2.1 from rfl,
        Stopwatch.check_after_hits]
      omega
  | lapAfterOp now after sF pF lF =>
      rw [show applyOp sw (.lapAfterOp now after sF pF lF)
          = (sw.lap_after (fun _ => now) 0 after sF pF lF noOpts).2.1 from rfl,
        Stopwatch.lap_after_hits]
      omega

/-- C6: the hits counter is monotonically non-decreasing along every sequence
of operations between two resets (no reset/resetHits, hit counts
non-negative); pause, start, check and lap leave it unchanged while hit and
the check_after/lap_after operations increment it; reset_hits and reset set
it back to zero. -/
theorem c6_hits_accounting (sw : Stopwatch) :
    (∀ ops : List TraceOp, (∀ op ∈ ops, op.hitsSafe = true) →
       sw._hits ≤ (runOps sw ops)._hits) ∧
    (∀ now : ℚ, (applyOp sw (.pauseOp now))._hits = sw._hits) ∧
    (∀ now : ℚ, (applyOp sw (.startOp now))._hits = sw._hits) ∧
    (∀ (now : ℚ) (sF pF : Bool), (applyOp sw (.checkOp now sF pF))._hits = sw._hits) ∧
    (∀ (now : ℚ) (sF pF lF : Bool), (applyOp sw (.lapOp now sF pF lF))._hits = sw._hits) ∧
    (∀ n : ℤ, (applyOp sw (.hitOp n))._hits = sw._hits + n) ∧
    (∀ (now : ℚ) (after : ℤ) (sF pF : Bool),
       (applyOp sw (.checkAfterOp now after sF pF))._hits = sw._hits + 1) ∧
    (∀ (now : ℚ) (after : ℤ) (sF pF lF : Bool),
       (applyOp sw (.lapAfterOp now after sF pF lF))._hits = sw._hits + 1) ∧
    ((applyOp sw .resetHitsOp)._hits = 0) ∧
    (∀ (now : ℚ) (sF : Bool) (s? l? : Option ℚ),
       (applyOp sw (.resetOp now sF s? l?))._hits = 0) := by
  refine ⟨?_, fun now => Stopwatch.pause_hits sw _ 0 true,
    fun now => Stopwatch.start_hits sw _ 0 true,
    fun now sF pF => Stopwatch.check_hits sw _ 0 sF pF none noOpts,
    fun now sF pF lF => Stopwatch.lap_hits sw _ 0 sF pF lF noOpts,
    fun n => rfl,
    fun now after sF pF => Stopwatch.check_after_hits sw _ 0 after sF pF noOpts,
    fun now after sF pF lF => Stopwatch.lap_after_hits sw _ 0 after sF pF lF noOpts,
    rfl, fun now sF s? l? => rfl⟩
  intro ops
  induction ops generalizing sw with
  | nil => exact fun _ => le_refl _
  | cons op rest ih =>
      intro hsafe
      have h1 := applyOp_hits_mono sw op (hsafe op (List.mem_cons_self op rest))
      have h2 := ih (applyOp sw op) (fun o ho => hsafe o (List.mem_cons_of_mem op ho))
      exact le_trans h1 h2

/-- Witness for c6_hits_accounting on a concrete hits-safe trace. -/
theorem c6_hits_accounting_witness :
    (∀ op ∈ [TraceOp.hitOp 2, TraceOp.checkAfterOp 1 3 false false,
        TraceOp.pauseOp 2, TraceOp.lapAfterOp 3 5 false false true],
      op.hitsSafe = true) ∧
    (blankStopwatch true false "f" none)._hits ≤
      (runOps (blankStopwatch true false "f" none)
        [TraceOp.hitOp 2, TraceOp.checkAfterOp 1 3 false false,
         TraceOp.pauseOp 2, TraceOp.lapAfterOp 3 5 false false true])._hits :=
  ⟨by decide, (c6_hits_accounting (blankStopwatch true false "f" none)).1
    [TraceOp.hitOp 2, TraceOp.checkAfterOp 1 3 false false,
     TraceOp.pauseOp 2, TraceOp.lapAfterOp 3 5 false false true] (by decide)⟩

/-- The lap-partition invariant: the sum of logged laps plus the start epoch
and total pause subtraction equals the split reference plus the lap pause
subtraction.  Equivalently (the reading T cancels): for any current reading
T, sum laps + (T - splitRef - lapPauseOffset) = T - startRef - pauseOffset. -/
def lapPartitionInv (sw : Stopwatch) : Prop :=
  sw._laps.sum + sw._start + sw._less = sw._split + sw._lap_less

/-- pause preserves the lap-partition invariant. -/
theorem lapPartitionInv_pause (sw : Stopwatch) (τ : ℕ → ℚ) (k : ℕ) (b : Bool)
    (h : lapPartitionInv sw) : lapPartitionInv ((sw.pause τ k b).1) := by
  unfold Stopwatch.pause
  dsimp only
  split
  · exact h
  · exact h

/-- start at a single instant preserves the lap-partition invariant: both
pause subtractions grow by the same paused interval. -/
theorem lapPartitionInv_start (sw : Stopwatch) (now : ℚ) (k : ℕ) (b : Bool)
    (h : lapPartitionInv sw) : lapPartitionInv ((sw.start (fun _ => now) k b).1) := by
  unfold Stopwatch.start lapPartitionInv
  dsimp only
  unfold lapPartitionInv at h
  split
  · split
    · dsimp only
      linarith
    · exact h
  · exact h

/-- check at a single instant preserves the lap-partition invariant. -/
theorem lapPartitionInv_check (sw : Stopwatch) (now : ℚ) (k : ℕ) (sF pF : Bool)
    (stamp : Option ℚ) (opts : ReportOpts) (h : lapPartitionInv sw) :
    lapPartitionInv ((sw.check (fun _ => now) k sF pF stamp opts).2.1) := by
  unfold Stopwatch.check
  dsimp only
  exact lapPartitionInv_start _ now _ sF (lapPartitionInv_pause _ _ _ pF h)

/-- lap at a single instant preserves the lap-partition invariant: committing
the open lap moves exactly its duration from the open side to the sum. -/
theorem lapPartitionInv_lap (sw : Stopwatch) (now : ℚ) (k : ℕ) (sF pF lF : Bool)
    (opts : ReportOpts) (h : lapPartitionInv sw) :
    lapPartitionInv ((sw.lap (fun _ => now) k sF pF lF opts).2.1) := by
  unfold Stopwatch.lap
  dsimp only
  have h2 : lapPartitionInv
      ((sw.pause (fun _ => now) k pF).1.start (fun _ => now)
        ((sw.pause (fun _ => now) k pF).2) sF).1 :=
    lapPartitionInv_start ((sw.pause (fun _ => now) k pF).1) now
      ((sw.pause (fun _ => now) k pF).2) sF
      (lapPartitionInv_pause sw (fun _ => now) k pF h)
  apply lapPartitionInv_check _ now _ false false _ noOpts
  split
  · unfold lapPartitionInv at h2 ⊢
    dsimp only
    rw [List.sum_append, List.sum_singleton]
    linarith
  · exact h2

/-- Any core operation (pause, start, lap, check) preserves the
lap-partition invariant. -/
theorem lapPartitionInv_applyOp (sw : Stopwatch) (op : TraceOp)
    (hc : op.isCore = true) (h : lapPartitionInv sw) :
    lapPartitionInv (applyOp sw op) := by
  cases op with
  | pauseOp now => exact lapPartitionInv_pause sw _ 0 true h
  | startOp now => exact lapPartitionInv_start sw now 0 true h
  | checkOp now sF pF => exact lapPartitionInv_check sw now 0 sF pF none noOpts h
  | lapOp now sF pF lF => exact lapPartitionInv_lap sw now 0 sF pF lF noOpts h
  | hitOp n => simp [TraceOp.isCore] at hc
  | resetHitsOp => simp [TraceOp.isCore] at hc
  | resetOp now sF s? l? => simp [TraceOp.isCore] at hc
  | checkAfterOp now after sF pF => simp [TraceOp.isCore] at hc
  | lapAfterOp now after sF pF lF => simp [TraceOp.isCore] at hc

/-- A freshly constructed stopwatch satisfies the lap-partition invariant. -/
theorem lapPartitionInv_fresh (numeric hms : Bool) (form : String)
    (process : Option (ℚ → ℚ)) (startF : Bool) (t0 : ℚ) :
    lapPartitionInv (Stopwatch.fresh numeric hms form process startF t0) := by
  unfold Stopwatch.fresh Stopwatch.reset blankStopwatch lapPartitionInv
  simp

/-- The lap-partition invariant is preserved along any sequence of core
operations. -/
theorem lapPartitionInv_runOps (sw : Stopwatch) (ops : List TraceOp)
    (hcore : ∀ op ∈ ops, op.isCore = true) (h : lapPartitionInv sw) :
    lapPartitionInv (runOps sw ops) := by
  induction ops generalizing sw with
  | nil => exact h
  | cons op rest ih =>
      exact ih (applyOp sw op) (fun o ho => hcore o (List.mem_cons_of_mem op ho))
        (lapPartitionInv_applyOp sw op (hcore op (List.mem_cons_self op rest)) h)

/-- C1: along every sequence of core start/pause/lap/check operations run at
ideal instants from a freshly constructed stopwatch, the sum of all logged
lap durations plus the still-open lap time (current reading - splitRef -
lapPauseOffset) equals the total elapsed value check computes at the same
instant. -/
theorem c1_lap_partition (numeric hms : Bool) (form : String)
    (process : Option (ℚ → ℚ)) (startF : Bool) (t0 : ℚ) (ops : List TraceOp)
    (t : ℚ) (hcore : ∀ op ∈ ops, op.isCore = true) :
    (runOps (Stopwatch.fresh numeric hms form process startF t0) ops)._laps.sum
      + ((runOps (Stopwatch.fresh numeric hms form process startF t0) ops)._timeVal
            (fun _ => t) 0
          - (runOps (Stopwatch.fresh numeric hms form process startF t0) ops)._split
          - (runOps (Stopwatch.fresh numeric hms form process startF t0) ops)._lap_less)
      = ((runOps (Stopwatch.fresh numeric hms form process startF t0) ops).check
            (fun _ => t) 0 false false none noOpts).2.1._check := by
  have hInv : lapPartitionInv (runOps (Stopwatch.fresh numeric hms form process startF t0) ops) :=
    lapPartitionInv_runOps _ ops hcore
      (lapPartitionInv_fresh numeric hms form process startF t0)
  have hrhs : ((runOps (Stopwatch.fresh numeric hms form process startF t0) ops).check
        (fun _ => t) 0 false false none noOpts).2.1._check
      = (runOps (Stopwatch.fresh numeric hms form process startF t0) ops)._timeVal
          (fun _ => t) 0
        - (runOps (Stopwatch.fresh numeric hms form process startF t0) ops)._start
        - (runOps (Stopwatch.fresh numeric hms form process startF t0) ops)._less := rfl
  rw [hrhs]
  unfold lapPartitionInv at hInv
  linarith

/-- A sample trace of core operations for the lap-partition witness. -/
def c1SampleOps : List TraceOp :=
  [TraceOp.startOp 1, TraceOp.pauseOp 2, TraceOp.startOp 3,
   TraceOp.lapOp 4 false false true, TraceOp.checkOp 5 false false,
   TraceOp.lapOp 6 false true true]

/-- Witness for c1_lap_partition on a concrete trace of core operations. -/
theorem c1_lap_partition_witness :
    (∀ op ∈ c1SampleOps, op.isCore = true) ∧
    ((runOps (Stopwatch.fresh false true "f" none true 0) c1SampleOps)._laps.sum
      + ((runOps (Stopwatch.fresh false true "f" none true 0) c1SampleOps)._timeVal
            (fun _ => 7) 0
          - (runOps (Stopwatch.fresh false true "f" none true 0) c1SampleOps)._split
          - (runOps (Stopwatch.fresh false true "f" none true 0) c1SampleOps)._lap_less)
      = ((runOps (Stopwatch.fresh false true "f" none true 0) c1SampleOps).check
            (fun _ => 7) 0 false false none noOpts).2.1._check) :=
  ⟨by decide, c1_lap_partition false true "f" none true 0 c1SampleOps 7 (by decide)⟩

/-- One fused iteration from an active, unbroken state: the expiration check
reads the source once and sees elapsed = reading - startRef - pauseOffset,
the lap commit reads twice more, epoch fields are untouched, and the break
flag becomes exactly the overtime comparison. -/
theorem timedLoopStep_active_spec (timer : ℚ) (τ : ℕ → ℚ) (sw : Stopwatch) (k : ℕ)
    (hp : sw._pause = 0) (hb : sw._break_loop = false) :
    (timedLoopStep timer τ sw k).1 = τ k - sw._start - sw._less ∧
    (timedLoopStep timer τ sw k).2.2 = k + 3 ∧
    (timedLoopStep timer τ sw k).2.1._pause = 0 ∧
    (timedLoopStep timer τ sw k).2.1._start = sw._start ∧
    (timedLoopStep timer τ sw k).2.1._less = sw._less ∧
    (timedLoopStep timer τ sw k).2.1._break_loop
      = decide (timer ≤ τ k - sw._start - sw._less) := by
  by_cases hbr : timer ≤ τ k - sw._start - sw._less <;>
    simp [timedLoopStep, Stopwatch.check, Stopwatch.lap, Stopwatch.start,
      Stopwatch.pause, Stopwatch._timeVal, Stopwatch._timeK, Stopwatch._report,
      noOpts, hp, hb, hbr]

/-- One fused iteration from a paused, unbroken state (the state right after
the loop reset): start consumes two readings and accounts the paused
interval, after which the iteration proceeds as in the active case. -/
theorem timedLoopStep_paused_spec (timer : ℚ) (τ : ℕ → ℚ) (sw : Stopwatch) (k : ℕ)
    (hp : sw._pause ≠ 0) (hb : sw._break_loop = false) :
    (timedLoopStep timer τ sw k).1
      = τ (k + 2) - sw._start - (sw._less + (τ k - sw._pause)) ∧
    (timedLoopStep timer τ sw k).2.2 = k + 5 ∧
    (timedLoopStep timer τ sw k).2.1._pause = 0 ∧
    (timedLoopStep timer τ sw k).2.1._start = sw._start ∧
    (timedLoopStep timer τ sw k).2.1._less = sw._less + (τ k - sw._pause) ∧
    (timedLoopStep timer τ sw k).2.1._break_loop
      = decide (timer ≤ τ (k + 2) - sw._start - (sw._less + (τ k - sw._pause))) := by
  by_cases hbr : timer ≤ τ (k + 2) - sw._start - (sw._less + (τ k - sw._pause)) <;>
    simp [timedLoopStep, Stopwatch.check, Stopwatch.lap, Stopwatch.start,
      Stopwatch.pause, Stopwatch._timeVal, Stopwatch._timeK, Stopwatch._report,
      noOpts, hp, hb, hbr]

/-- Fused-loop iteration from an active state with epoch constant A: as long
as the expiration check at reading counter kc + 3j stays under the threshold
the loop continues, and it stops at the first check that reaches it, having
yielded exactly the counter values i, i+1, ... paired with the elapsed values
the checks computed.  Any fuel beyond the required n + 1 iterations gives the
same finite result. -/
theorem timedLoopCountGo_spec (timer : ℚ) (τ : ℕ → ℚ) (A : ℚ) :
    ∀ (n : ℕ) (sw : Stopwatch) (kc i extra : ℕ),
      sw._pause = 0 → sw._break_loop = false → sw._start + sw._less = A →
      (∀ j, j < n → τ (kc + 3 * j) - A < timer) →
      timer ≤ τ (kc + 3 * n) - A →
      timedLoopCountGo timer τ (n + 1 + extra) sw kc i
        = some ((List.range (n + 1)).map (fun j => (i + j, τ (kc + 3 * j) - A))) := by
  intro n
  induction n with
  | zero =>
      intro sw kc i extra hp hb hA H1 H2
      obtain ⟨e1, e2, e3, e4, e5, e6⟩ := timedLoopStep_active_spec timer τ sw kc hp hb
      have hel : τ kc - sw._start - sw._less = τ kc - A := by rw [← hA]; ring
      have hbrk : (timedLoopStep timer τ sw kc).2.1._break_loop = true := by
        rw [e6, hel]
        simpa using H2
      have hfuel : 0 + 1 + extra = extra + 1 := by omega
      rw [hfuel]
      simp only [timedLoopCountGo]
      rw [hbrk, e1, hel]
      simp [List.range_succ]
  | succ n ih =>
      intro sw kc i extra hp hb hA H1 H2
      obtain ⟨e1, e2, e3, e4, e5, e6⟩ := timedLoopStep_active_spec timer τ sw kc hp hb
      have hel : τ kc - sw._start - sw._less = τ kc - A := by rw [← hA]; ring
      have hlt : τ kc - A < timer := by
        have := H1 0 (Nat.succ_pos n)
        simpa using this
      have hbrk : (timedLoopStep timer τ sw kc).2.1._break_loop = false := by
        rw [e6, hel]
        simp [not_le.mpr hlt]
      have hfuel : n + 1 + 1 + extra = (n + 1 + extra) + 1 := by omega
      rw [hfuel]
      simp only [timedLoopCountGo]
      rw [hbrk]
      simp only [Bool.false_eq_true, if_false]
      have hA2 : (timedLoopStep timer τ sw kc).2.1._start
          + (timedLoopStep timer τ sw kc).2.1._less = A := by
        rw [e4, e5]; exact hA
      have H1s : ∀ j, j < n → τ ((kc + 3) + 3 * j) - A < timer := by
        intro j hj
        have hidx : kc + 3 * (j + 1) = kc + 3 + 3 * j := by omega
        have := H1 (j + 1) (by omega)
        rw [hidx] at this
        exact this
      have H2s : timer ≤ τ ((kc + 3) + 3 * n) - A := by
        have hidx : kc + 3 * (n + 1) = kc + 3 + 3 * n := by omega
        rw [hidx] at H2
        exact H2
      rw [e2, ih (timedLoopStep timer τ sw kc).2.1 (kc + 3) (i + 1) extra e3 hbrk hA2 H1s H2s]
      rw [Option.map_some']
      refine congrArg some ?_
      rw [e1, hel]
      conv_rhs => rw [List.range_succ_eq_map, List.map_cons, List.map_map]
      refine List.cons_eq_cons.mpr ⟨?_, ?_⟩
      · simp
      · apply List.map_congr_left
        intro j hj
        have h2 : kc + 3 + 3 * j = kc + 3 * (j + 1) := by omega
        simp only [Function.comp_apply, Nat.succ_eq_add_one]
        rw [h2]
        congr 1
        omega

/-- The state reset leaves behind at the start of a timed loop: epoch and
split at the fresh reading, paused at that reading, all offsets cleared. -/
def resetState (sw : Stopwatch) (r : ℚ) : Stopwatch :=
  { sw with
     _start := r, _split := r, _check := 0, _lap := 0, _hits := 0,
     _pause := r, _less := 0, _lap_less := 0, _laps := [], _break_loop := false }

/-- timed_loop_count is the fused loop started from the reset state. -/
theorem timed_loop_count_unfold (sw : Stopwatch) (τ : ℕ → ℚ) (k : ℕ)
    (fuel : ℕ) (s m h : ℚ) :
    sw.timed_loop_count τ k fuel s m h
      = timedLoopCountGo (s + 60 * m + 3600 * h) τ fuel
          (resetState sw (τ k)) (k + 1) 0 := rfl

/-- C5: driving timed_loop with the infinite counter, a strictly advancing
fixed-step time source and a positive threshold under the default overtime
policy, iteration terminates: there is an n such that any fuel beyond n + 1
yields exactly the elements 0..n (finitely many of the unbounded supply),
each paired with the elapsed value its expiration check computed, the last
check having reached the threshold and all earlier ones having stayed under
it. -/
theorem c5_timed_loop_overtime (sw : Stopwatch) (t0 d s m hr : ℚ) (k : ℕ)
    (ht0 : 0 < t0) (hd : 0 < d) (htimer : 0 < s + 60 * m + 3600 * hr) :
    ∃ n : ℕ,
      (∀ extra : ℕ,
        sw.timed_loop_count (fun j => t0 + d * (j : ℚ)) k (n + 1 + extra) s m hr
          = some ((List.range (n + 1)).map (fun i : ℕ => (i, (3 * (i : ℚ) + 2) * d)))) ∧
      s + 60 * m + 3600 * hr ≤ (3 * (n : ℚ) + 2) * d ∧
      (∀ i : ℕ, i < n → (3 * (i : ℚ) + 2) * d < s + 60 * m + 3600 * hr) := by
  set τ : ℕ → ℚ := fun j => t0 + d * (j : ℚ) with hτ
  set timer : ℚ := s + 60 * m + 3600 * hr with htm
  have hpos : ∀ j : ℕ, 0 < τ j := by
    intro j
    have h0 : (0:ℚ) ≤ d * (j : ℚ) := mul_nonneg hd.le (Nat.cast_nonneg j)
    simp only [hτ]
    linarith
  have hpne : (resetState sw (τ k))._pause ≠ 0 := ne_of_gt (hpos k)
  obtain ⟨f1, f2, f3, f4, f5, f6⟩ :=
    timedLoopStep_paused_spec timer τ (resetState sw (τ k)) (k + 1) hpne rfl
  have hval : τ (k + 1 + 2) - (resetState sw (τ k))._start
      - ((resetState sw (τ k))._less + (τ (k + 1) - (resetState sw (τ k))._pause))
      = 2 * d := by
    simp only [resetState, hτ]
    push_cast
    ring
  have hAval : (timedLoopStep timer τ (resetState sw (τ k)) (k + 1)).2.1._start
      + (timedLoopStep timer τ (resetState sw (τ k)) (k + 1)).2.1._less
      = t0 + d * ((k : ℚ) + 1) := by
    rw [f4, f5]
    simp only [resetState, hτ]
    push_cast
    ring
  by_cases hcase : timer ≤ 2 * d
  · refine ⟨0, fun extra => ?_, by simpa using hcase,
      fun i hi => absurd hi (Nat.not_lt_zero i)⟩
    rw [timed_loop_count_unfold]
    have hfuel : 0 + 1 + extra = extra + 1 := by omega
    rw [hfuel]
    simp only [timedLoopCountGo]
    have hbrk : (timedLoopStep timer τ (resetState sw (τ k)) (k + 1)).2.1._break_loop
        = true := by
      rw [f6, hval]
      simpa using hcase
    rw [hbrk, f1, hval]
    simp [List.range_succ]
  · have h2d : 2 * d < timer := not_le.mp hcase
    have hex : ∃ mm : ℕ, timer ≤ (3 * (mm : ℚ) + 5) * d := by
      refine ⟨(⌈timer / d⌉).toNat, ?_⟩
      have hdiv : 0 < timer / d := div_pos htimer hd
      have hcnn : (0:ℤ) ≤ ⌈timer / d⌉ := Int.ceil_nonneg hdiv.le
      have hcast : (((⌈timer / d⌉).toNat : ℕ) : ℚ) = ((⌈timer / d⌉ : ℤ) : ℚ) := by
        exact_mod_cast congrArg (fun z : ℤ => (z : ℚ)) (Int.toNat_of_nonneg hcnn)
      have h0 : timer / d ≤ ((⌈timer / d⌉).toNat : ℚ) := by
        rw [hcast]
        exact Int.le_ceil (timer / d)
      have h1 : timer ≤ ((⌈timer / d⌉).toNat : ℚ) * d := by
        rw [div_le_iff₀ hd] at h0
        exact h0
      have h2 : (0:ℚ) ≤ ((⌈timer / d⌉).toNat : ℚ) := Nat.cast_nonneg _
      nlinarith
    have Hidx : ∀ j : ℕ,
        τ (k + 1 + 5 + 3 * j) - (t0 + d * ((k : ℚ) + 1)) = (3 * (j : ℚ) + 5) * d := by
      intro j
      simp only [hτ]
      push_cast
      ring
    refine ⟨Nat.find hex + 1, fun extra => ?_, ?_, ?_⟩
    · rw [timed_loop_count_unfold]
      have hfuel : Nat.find hex + 1 + 1 + extra = (Nat.find hex + 1 + extra) + 1 := by
        omega
      rw [hfuel]
      simp only [timedLoopCountGo]
      have hbrk : (timedLoopStep timer τ (resetState sw (τ k)) (k + 1)).2.1._break_loop
          = false := by
        rw [f6, hval]
        simp [hcase]
      rw [hbrk]
      simp only [Bool.false_eq_true, if_false]
      rw [f2]
      have H1 : ∀ j, j < Nat.find hex →
          τ (k + 1 + 5 + 3 * j) - (t0 + d * ((k : ℚ) + 1)) < timer := by
        intro j hj
        rw [Hidx j]
        exact not_le.mp (Nat.find_min hex hj)
      have H2 : timer ≤ τ (k + 1 + 5 + 3 * Nat.find hex) - (t0 + d * ((k : ℚ) + 1)) := by
        rw [Hidx]
        exact Nat.find_spec hex
      rw [timedLoopCountGo_spec timer τ (t0 + d * ((k : ℚ) + 1)) (Nat.find hex)
        (timedLoopStep timer τ (resetState sw (τ k)) (k + 1)).2.1 (k + 1 + 5) (0 + 1)
        extra f3 hbrk hAval H1 H2]
      rw [Option.map_some']
      refine congrArg some ?_
      rw [f1, hval]
      conv_rhs => rw [List.range_succ_eq_map, List.map_cons, List.map_map]
      refine List.cons_eq_cons.mpr ⟨?_, ?_⟩
      · norm_num
      · apply List.map_congr_left
        intro j hj
        rw [Hidx j]
        simp only [Function.comp_apply, Nat.succ_eq_add_one, Prod.mk.injEq]
        refine ⟨by omega, ?_⟩
        push_cast
        ring
    · have hspec := Nat.find_spec hex
      push_cast
      push_cast at hspec
      linarith
    · intro i hi
      cases i with
      | zero => simpa using h2d
      | succ j =>
          have hj : j < Nat.find hex := by omega
          have hmin := not_le.mp (Nat.find_min hex hj)
          push_cast
          push_cast at hmin
          linarith

/-- Witness for c5_timed_loop_overtime with unit step from reading 1 and a
five-second budget. -/
theorem c5_timed_loop_overtime_witness :
    (0 : ℚ) < 1 ∧ (0 : ℚ) < 1 ∧ (0 : ℚ) < 5 + 60 * 0 + 3600 * 0 ∧
    (∃ n : ℕ,
      (∀ extra : ℕ,
        (blankStopwatch true false "f" none).timed_loop_count
            (fun j => 1 + 1 * (j : ℚ)) 0 (n + 1 + extra) 5 0 0
          = some ((List.range (n + 1)).map (fun i : ℕ => (i, (3 * (i : ℚ) + 2) * 1)))) ∧
      5 + 60 * 0 + 3600 * 0 ≤ (3 * (n : ℚ) + 2) * 1 ∧
      (∀ i : ℕ, i < n → (3 * (i : ℚ) + 2) * 1 < 5 + 60 * 0 + 3600 * 0)) :=
  ⟨by norm_num, by norm_num, by norm_num,
    c5_timed_loop_overtime (blankStopwatch true false "f" none) 1 1 5 0 0 0
      (by norm_num) (by norm_num) (by norm_num)⟩
